import Mathlib

/-!
Verification of the `stop-handle` shutdown-coordination primitive
(`src/lib.rs`), as a shallow embedding in Lean 4.

The Rust code keeps a shared `Arc<Mutex<Option<oneshot::Sender<T>>>>`
slot. Any clone of `StopHandle` may call `stop(reason)`, which takes
the sender out of the slot (if still present) and sends the reason
through the oneshot channel. The paired `StopWait` is a fused future
over the oneshot receiver, yielding `StopReason::Requested(reason)`
when a reason arrives and `StopReason::HandleLost` when every sender
clone was dropped without sending.

Because every mutation of the slot happens under the mutex, concurrent
executions are serialized: we model the shared state explicitly and
every operation as a state transformer, with arbitrary interleavings
represented by arbitrary sequences of operations.
-/

namespace StopLib

/-- `StopReason<T>`: the two-variant outcome enum from `src/lib.rs`
(`HandleLost` and `Requested(T)`). -/
inductive StopReason (T : Type) where
  | HandleLost : StopReason T
  | Requested : T → StopReason T
  deriving DecidableEq, Repr

/-- State of the `futures::channel::oneshot` channel connecting the
sender stored in the slot to the `StopWait` receiver: nothing happened
yet (`pending`), a value was sent (`sent v`), or the sender was dropped
without sending (`closed`). -/
inductive ChanData (T : Type) where
  | pending : ChanData T
  | sent : T → ChanData T
  | closed : ChanData T
  deriving DecidableEq, Repr

/-- The shared state behind `Arc<Mutex<Option<oneshot::Sender<T>>>>`:
`refs` is the `Arc` strong count (number of live `StopHandle` clones),
`slot` records whether the `Option<oneshot::Sender<T>>` is `Some`,
`chan` is the oneshot channel's state, and `rxAlive` records whether the
paired receiver (inside `StopWait`) still exists. -/
structure SlotState (T : Type) where
  refs : Nat
  slot : Bool
  chan : ChanData T
  rxAlive : Bool
  deriving DecidableEq, Repr

/-- `Poll` from `futures::task`: a future is either ready with a value
or pending. -/
inductive Poll (A : Type) where
  | ready : A → Poll A
  | pending : Poll A
  deriving DecidableEq, Repr

/-- `oneshot::Sender::send(v)`: succeeds and stores the value in the
channel when the receiver still exists, otherwise returns the value
back as an error (`Err(v)`) and leaves the channel unchanged. -/
def oneshotSend {T : Type} (v : T) (s : SlotState T) : Except T (SlotState T) :=
  if s.rxAlive then Except.ok { s with chan := ChanData.sent v } else Except.error v

/-- The body of `StopHandle::stop` (src/lib.rs lines 74-78), with the
boolean recording whether the `if let Some(tx)` branch was taken — i.e.
whether the send endpoint was still present in the slot (the spec's
`deposit` contract). The `take()` removes the sender from the slot in
either branch of the send; the `let _ =` discards the send result. -/
def deposit {T : Type} (reason : T) (s : SlotState T) : Bool × SlotState T :=
  if s.slot then
    match oneshotSend reason s with
    | Except.ok s1 => (true, { s1 with slot := false })
    | Except.error _ => (true, { s with slot := false })
  else (false, s)

/-- `StopHandle::stop(reason)`: its effect on the shared state. -/
def StopHandle.stop {T : Type} (reason : T) (s : SlotState T) : SlotState T :=
  (deposit reason s).2

/-- `Clone for StopHandle` (`Arc::clone`): bumps the strong count of
the shared slot; the slot contents and channel are untouched. -/
def cloneHandle {T : Type} (s : SlotState T) : SlotState T :=
  { s with refs := s.refs + 1 }

/-- Dropping one `StopHandle` clone: decrements the `Arc` strong count;
when the last clone is dropped, the `Mutex<Option<Sender>>` is dropped
with it, and if the sender was still in the slot its drop closes the
oneshot channel. -/
def dropHandle {T : Type} (s : SlotState T) : SlotState T :=
  if s.refs ≤ 1 then
    { s with refs := 0, slot := false,
             chan := if s.slot then ChanData.closed else s.chan }
  else { s with refs := s.refs - 1 }

/-- Dropping the `StopWait` future drops the oneshot receiver. -/
def dropReceiver {T : Type} (s : SlotState T) : SlotState T :=
  { s with rxAlive := false }

/-- `StopWait<T>`: the waiter side holds `Fuse<oneshot::Receiver<T>>`;
its own state is the fuse's terminated flag (the channel state lives in
the shared `SlotState`). -/
structure StopWait (T : Type) where
  terminated : Bool
  deriving DecidableEq, Repr

/-- Polling the raw `oneshot::Receiver`: ready with `Ok(v)` once a value
was sent, ready with `Err(Canceled)` once the sender is gone, pending
otherwise. -/
def receiverPoll {T : Type} (c : ChanData T) : Poll (Except Unit T) :=
  match c with
  | ChanData.pending => Poll.pending
  | ChanData.sent v => Poll.ready (Except.ok v)
  | ChanData.closed => Poll.ready (Except.error ())

/-- `Fuse<oneshot::Receiver<T>>::poll`: once terminated it returns
`Pending` without touching the inner future; otherwise it polls the
inner receiver and, if that is ready, marks itself terminated. -/
def fusePoll {T : Type} (w : StopWait T) (c : ChanData T) :
    Poll (Except Unit T) × StopWait T :=
  if w.terminated then (Poll.pending, w)
  else
    match receiverPoll c with
    | Poll.pending => (Poll.pending, w)
    | Poll.ready r => (Poll.ready r, ⟨true⟩)

/-- `Future::poll for StopWait` (src/lib.rs lines 97-103): `ready!` on
the fused receiver, then map `Err(Canceled)` to `HandleLost` and
`Ok(reason)` to `Requested(reason)`. -/
def StopWait.poll {T : Type} (w : StopWait T) (c : ChanData T) :
    Poll (StopReason T) × StopWait T :=
  match fusePoll w c with
  | (Poll.pending, w1) => (Poll.pending, w1)
  | (Poll.ready (Except.error _), w1) => (Poll.ready StopReason.HandleLost, w1)
  | (Poll.ready (Except.ok v), w1) => (Poll.ready (StopReason.Requested v), w1)

/-- `FusedFuture::is_terminated for StopWait`: delegates to the fuse. -/
def StopWait.is_terminated {T : Type} (w : StopWait T) : Bool :=
  w.terminated

/-- `stop_handle()` (src/lib.rs lines 106-115): a fresh pair sharing one
slot — one live handle, sender present, channel pending, receiver alive,
fuse not terminated. -/
def stop_handle (T : Type) : SlotState T × StopWait T :=
  (⟨1, true, ChanData.pending, true⟩, ⟨false⟩)

/-- Awaiting a `StopWait` against a given channel state: the outcome of
the first poll, `none` while it would suspend. -/
def awaitOutcome {T : Type} (w : StopWait T) (c : ChanData T) :
    Option (StopReason T) :=
  match (StopWait.poll w c).1 with
  | Poll.ready r => some r
  | Poll.pending => none

/-- The operations of the primitive that touch the shared slot. -/
inductive Op (T : Type) where
  | stopOp : T → Op T
  | cloneOp : Op T
  | dropOp : Op T
  | dropRxOp : Op T

/-- Apply one operation to the shared state. -/
def applyOp {T : Type} : Op T → SlotState T → SlotState T
  | Op.stopOp r, s => StopHandle.stop r s
  | Op.cloneOp, s => cloneHandle s
  | Op.dropOp, s => dropHandle s
  | Op.dropRxOp, s => dropReceiver s

/-- Run a sequence of operations (one serialized interleaving). -/
def runOps {T : Type} (ops : List (Op T)) (s : SlotState T) : SlotState T :=
  ops.foldl (fun s o => applyOp o s) s

/-- States reachable from a fresh `stop_handle()` pair by some
serialized interleaving of the primitive's operations. -/
def Reachable {T : Type} (s : SlotState T) : Prop :=
  ∃ ops : List (Op T), s = runOps ops (stop_handle T).1

/-- A sequence of `stop` calls (the mutex serializes N concurrent
callers into some order). -/
def runStops {T : Type} (rs : List T) (s : SlotState T) : SlotState T :=
  rs.foldl (fun s r => StopHandle.stop r s) s

/-- How many of a sequence of `stop` calls found the sender present and
transmitted their reason. -/
def countWins {T : Type} : List T → SlotState T → Nat
  | [], _ => 0
  | r :: rest, s =>
      (if (deposit r s).1 then 1 else 0) + countWins rest (deposit r s).2

/-- The slot/channel coupling: while the sender is still stored in the
slot, nothing can have been sent through the channel and the channel
cannot be closed. -/
def SlotInv {T : Type} (s : SlotState T) : Prop :=
  s.slot = true → s.chan = ChanData.pending

/-- A `fmt::Formatter` modelled as an output buffer; `write!` with a
literal piece appends it. -/
structure Fmt where
  buf : String
  deriving DecidableEq, Repr

/-- One `write!` of a plain string piece into the formatter. -/
def Fmt.write (f : Fmt) (piece : String) : Fmt :=
  ⟨f.buf ++ piece⟩

/-- `Display for StopReason` (src/lib.rs lines 17-27): given the
`Display` rendering `fT` of the payload type,
`write!(f, "handle lost")` for `HandleLost` and
`write!(f, "requested with reason \x60\x7b\x7d\x60", r)` for
`Requested(r)` — the format string splits into the literal before the
argument, the rendered argument, and the literal after it. -/
def StopReason.displayFmt {T : Type} (fT : T → String) :
    StopReason T → Fmt → Fmt
  | StopReason.HandleLost, f => f.write "handle lost"
  | StopReason.Requested r, f =>
      ((f.write "requested with reason `").write (fT r)).write "`"

/-- `Clone for StopReason` (src/lib.rs lines 41-51): match on the
variant, rebuild `HandleLost` as is and `Requested(r)` from `r.clone()`
(the payload clone `cT`). -/
def StopReason.cloneImpl {T : Type} (cT : T → T) :
    StopReason T → StopReason T
  | StopReason.HandleLost => StopReason.HandleLost
  | StopReason.Requested r => StopReason.Requested (cT r)

/-! ## Basic lemmas about the operations -/

theorem deposit_of_slot_false {T : Type} (r : T) (s : SlotState T)
    (h : s.slot = false) : deposit r s = (false, s) := by
  simp [deposit, h]

theorem stop_of_slot_false {T : Type} (r : T) (s : SlotState T)
    (h : s.slot = false) : StopHandle.stop r s = s := by
  simp [StopHandle.stop, deposit_of_slot_false r s h]

theorem deposit_of_slot_true_rx {T : Type} (r : T) (s : SlotState T)
    (hs : s.slot = true) (hrx : s.rxAlive = true) :
    deposit r s = (true, { s with slot := false, chan := ChanData.sent r }) := by
  simp [deposit, oneshotSend, hs, hrx]

theorem deposit_of_slot_true_norx {T : Type} (r : T) (s : SlotState T)
    (hs : s.slot = true) (hrx : s.rxAlive = false) :
    deposit r s = (true, { s with slot := false }) := by
  simp [deposit, oneshotSend, hs, hrx]

theorem stop_slot_false {T : Type} (r : T) (s : SlotState T) :
    (StopHandle.stop r s).slot = false ∨ StopHandle.stop r s = s := by
  by_cases hs : s.slot = true
  · left
    by_cases hrx : s.rxAlive = true
    · simp [StopHandle.stop, deposit_of_slot_true_rx r s hs hrx]
    · simp [StopHandle.stop,
        deposit_of_slot_true_norx r s hs (by simpa using hrx)]
  · right
    exact stop_of_slot_false r s (by simpa using hs)

theorem runStops_of_slot_false {T : Type} (rs : List T) (s : SlotState T)
    (h : s.slot = false) : runStops rs s = s := by
  induction rs with
  | nil => rfl
  | cons r rest ih =>
      simp only [runStops, List.foldl_cons]
      rw [stop_of_slot_false r s h]
      exact ih

theorem countWins_of_slot_false {T : Type} (rs : List T) (s : SlotState T)
    (h : s.slot = false) : countWins rs s = 0 := by
  induction rs with
  | nil => rfl
  | cons r rest ih =>
      simp only [countWins, deposit_of_slot_false r s h]
      simpa using ih

theorem cloneHandle_iter {T : Type} (n : Nat) (s : SlotState T) :
    cloneHandle^[n] s = { s with refs := s.refs + n } := by
  induction n generalizing s with
  | zero => rfl
  | succ m ih =>
      rw [Function.iterate_succ_apply, ih]
      simp [cloneHandle, Nat.add_comm, Nat.add_assoc, Nat.add_left_comm]

theorem dropHandle_iter {T : Type} (n : Nat) (s : SlotState T)
    (h : s.refs = n + 1) (hs : s.slot = true) :
    dropHandle^[n + 1] s =
      { s with refs := 0, slot := false, chan := ChanData.closed } := by
  induction n generalizing s with
  | zero =>
      rw [Function.iterate_one]
      simp [dropHandle, h, hs]
  | succ m ih =>
      rw [Function.iterate_succ_apply]
      have hdrop : dropHandle s = { s with refs := m + 1 } := by
        simp [dropHandle, h]
      rw [hdrop, ih { s with refs := m + 1 } rfl hs]

theorem applyOp_preserves_inv {T : Type} (o : Op T) (s : SlotState T)
    (h : SlotInv s) : SlotInv (applyOp o s) := by
  cases o with
  | stopOp r =>
      rcases stop_slot_false r s with hf | he
      · intro hs; simp [applyOp, hf] at hs
      · simpa [applyOp, he] using h
  | cloneOp =>
      intro hs
      simpa [applyOp, cloneHandle] using h (by simpa [applyOp, cloneHandle] using hs)
  | dropOp =>
      intro hs
      by_cases hr : s.refs ≤ 1
      · simp [applyOp, dropHandle, hr] at hs
      · have hs1 : s.slot = true := by simpa [applyOp, dropHandle, hr] using hs
        simpa [applyOp, dropHandle, hr] using h hs1
  | dropRxOp =>
      intro hs
      simpa [applyOp, dropReceiver] using h (by simpa [applyOp, dropReceiver] using hs)

theorem runOps_preserves_inv {T : Type} (ops : List (Op T)) (s : SlotState T)
    (h : SlotInv s) : SlotInv (runOps ops s) := by
  induction ops generalizing s with
  | nil => exact h
  | cons o rest ih =>
      simp only [runOps, List.foldl_cons]
      exact ih (applyOp o s) (applyOp_preserves_inv o s h)

theorem reachable_inv {T : Type} (s : SlotState T) (h : Reachable s) :
    SlotInv s := by
  obtain ⟨ops, rfl⟩ := h
  exact runOps_preserves_inv ops _ (fun _ => rfl)

theorem awaitOutcome_handleLost_iff {T : Type} (c : ChanData T) :
    awaitOutcome (stop_handle T).2 c = some StopReason.HandleLost ↔
      c = ChanData.closed := by
  cases c <;>
    simp [stop_handle, awaitOutcome, StopWait.poll, fusePoll, receiverPoll]

/-! ## Claim theorems -/

/-- C1: for every reason `r`, calling `stop(r)` on a freshly created
handle (the slot still holds the sender) and then awaiting the paired
`StopWait` yields `Requested(r)`. -/
theorem stop_then_wait_requested (T : Type) (r : T) :
    awaitOutcome (stop_handle T).2
        (StopHandle.stop r (stop_handle T).1).chan =
      some (StopReason.Requested r) := by
  simp [stop_handle, StopHandle.stop, deposit, oneshotSend, awaitOutcome,
    StopWait.poll, fusePoll, receiverPoll]

/-- C2: `stop(r1)` then `stop(r2)` (from the same handle or from a clone
sharing the slot) yields `Requested(r1)`; the second call leaves the
state unchanged (slot untouched, nothing transmitted) and returns. -/
theorem second_stop_noop (T : Type) (r1 r2 : T) :
    StopHandle.stop r2 (StopHandle.stop r1 (stop_handle T).1) =
        StopHandle.stop r1 (stop_handle T).1 ∧
      deposit r2 (StopHandle.stop r1 (stop_handle T).1) =
        (false, StopHandle.stop r1 (stop_handle T).1) ∧
      StopHandle.stop r2 (cloneHandle (StopHandle.stop r1 (stop_handle T).1)) =
        cloneHandle (StopHandle.stop r1 (stop_handle T).1) ∧
      awaitOutcome (stop_handle T).2
          (StopHandle.stop r2 (StopHandle.stop r1 (stop_handle T).1)).chan =
        some (StopReason.Requested r1) := by
  refine ⟨?_, ?_, ?_, ?_⟩ <;>
    simp [stop_handle, StopHandle.stop, deposit, oneshotSend, cloneHandle,
      awaitOutcome, StopWait.poll, fusePoll, receiverPoll]

/-- C3: cloning the fresh handle `n` times and then dropping all `n + 1`
clones without ever calling `stop` makes the paired wait resolve to
`HandleLost`. -/
theorem drop_all_handles_lost (T : Type) (n : Nat) :
    awaitOutcome (stop_handle T).2
        (dropHandle^[n + 1] (cloneHandle^[n] (stop_handle T).1)).chan =
      some StopReason.HandleLost := by
  rw [cloneHandle_iter n (stop_handle T).1,
    dropHandle_iter n { (stop_handle T).1 with refs := (stop_handle T).1.refs + n }
      (by simp [stop_handle, Nat.add_comm]) (by simp [stop_handle])]
  simp [stop_handle, awaitOutcome, StopWait.poll, fusePoll, receiverPoll]

/-- C4: the slot is write-once — `deposit` removes the sender and
transmits the reason exactly when the sender is present (receiver
alive), does nothing when it is absent, and no operation of the
primitive ever puts a sender back once the slot is empty. -/
theorem slot_write_once (T : Type) (r : T) (s : SlotState T) :
    (s.slot = true → s.rxAlive = true →
        deposit r s = (true, { s with slot := false, chan := ChanData.sent r })) ∧
      (s.slot = false → deposit r s = (false, s)) ∧
      ∀ (o : Op T) (s1 : SlotState T), s1.slot = false →
        (applyOp o s1).slot = false := by
  refine ⟨fun hs hrx => deposit_of_slot_true_rx r s hs hrx,
    fun hs => deposit_of_slot_false r s hs, ?_⟩
  intro o s1 h1
  cases o with
  | stopOp r2 => simp [applyOp, stop_of_slot_false r2 s1 h1, h1]
  | cloneOp => simpa [applyOp, cloneHandle] using h1
  | dropOp => by_cases hr : s1.refs ≤ 1 <;> simp [applyOp, dropHandle, hr, h1]
  | dropRxOp => simpa [applyOp, dropReceiver] using h1

/-- Witness for C4 at concrete inputs: a fresh slot accepts the deposit,
the consumed slot rejects a second one, and a further `stop` leaves the
slot empty. -/
theorem slot_write_once_witness :
    deposit 2 (stop_handle Nat).1 =
        (true, { (stop_handle Nat).1 with slot := false, chan := ChanData.sent 2 }) ∧
      deposit 3 (StopHandle.stop 2 (stop_handle Nat).1) =
        (false, StopHandle.stop 2 (stop_handle Nat).1) ∧
      (applyOp (Op.stopOp 5) (StopHandle.stop 2 (stop_handle Nat).1)).slot = false :=
  ⟨(slot_write_once Nat 2 (stop_handle Nat).1).1 rfl rfl,
   (slot_write_once Nat 3 (StopHandle.stop 2 (stop_handle Nat).1)).2.1 rfl,
   (slot_write_once Nat 3 (StopHandle.stop 2 (stop_handle Nat).1)).2.2
     (Op.stopOp 5) (StopHandle.stop 2 (stop_handle Nat).1) rfl⟩

/-- C5: in every reachable state, after the wait has resolved to
`HandleLost` no deposit can succeed any more, and once a deposit has
put a reason into the channel the wait resolves to that `Requested`
reason, never to `HandleLost`. -/
theorem outcome_exclusive_ordered (T : Type) (s : SlotState T)
    (h : Reachable s) :
    (awaitOutcome (stop_handle T).2 s.chan = some StopReason.HandleLost →
        ∀ r : T, deposit r s = (false, s)) ∧
      ∀ v : T, s.chan = ChanData.sent v →
        awaitOutcome (stop_handle T).2 s.chan =
          some (StopReason.Requested v) := by
  have hinv := reachable_inv s h
  constructor
  · intro hlost r
    have hc : s.chan = ChanData.closed :=
      (awaitOutcome_handleLost_iff s.chan).mp hlost
    have hslot : s.slot = false := by
      by_contra hb
      have hp : s.chan = ChanData.pending := hinv (by simpa using hb)
      rw [hc] at hp
      exact ChanData.noConfusion hp
    exact deposit_of_slot_false r s hslot
  · intro v hv
    simp [stop_handle, awaitOutcome, StopWait.poll, fusePoll, receiverPoll, hv]

/-- Witness for C5: the state reached by dropping the only handle is
reachable, its wait resolves to `HandleLost`, and a deposit after that
is a no-op. -/
theorem outcome_exclusive_ordered_witness :
    deposit 7 (runOps [Op.dropOp] (stop_handle Nat).1) =
      (false, runOps [Op.dropOp] (stop_handle Nat).1) :=
  (outcome_exclusive_ordered Nat (runOps [Op.dropOp] (stop_handle Nat).1)
      ⟨[Op.dropOp], rfl⟩).1 (by decide) 7

/-- C6: once `StopWait::poll` has yielded an outcome, the fuse is
terminated: `is_terminated` reports finished and every further poll is
absorbed, returning `Pending` and leaving the future unchanged. -/
theorem stopwait_resolves_once (T : Type) (w w1 : StopWait T)
    (c : ChanData T) (o : StopReason T)
    (h : StopWait.poll w c = (Poll.ready o, w1)) :
    StopWait.is_terminated w1 = true ∧
      ∀ c1 : ChanData T, StopWait.poll w1 c1 = (Poll.pending, w1) := by
  by_cases ht : w.terminated = true
  · simp [StopWait.poll, fusePoll, ht] at h
  · have hw1 : w1 = ⟨true⟩ := by
      cases c with
      | pending => simp [StopWait.poll, fusePoll, receiverPoll, ht] at h
      | sent v =>
          simp [StopWait.poll, fusePoll, receiverPoll, ht] at h
          exact h.2.symm
      | closed =>
          simp [StopWait.poll, fusePoll, receiverPoll, ht] at h
          exact h.2.symm
    subst hw1
    exact ⟨rfl, fun c1 => by simp [StopWait.poll, fusePoll]⟩

/-- Witness for C6: polling a fresh wait against a channel that already
holds a reason resolves it, after which `is_terminated` is `true`. -/
theorem stopwait_resolves_once_witness :
    StopWait.is_terminated (⟨true⟩ : StopWait Nat) = true :=
  (stopwait_resolves_once Nat ⟨false⟩ ⟨true⟩ (ChanData.sent 0)
    (StopReason.Requested 0) rfl).1

/-- C7: `stop(r)` returns normally in every state of the slot — sender
present with the waiter alive (the reason is sent), sender present with
the waiter already dropped (the send error is discarded by `let _ =`),
or sender already consumed (no-op). It is a total state transformer
with no failure outcome. -/
theorem stop_no_failure (T : Type) (r : T) (s : SlotState T) :
    (s.slot = true → s.rxAlive = true →
        StopHandle.stop r s = { s with slot := false, chan := ChanData.sent r }) ∧
      (s.slot = true → s.rxAlive = false →
        StopHandle.stop r s = { s with slot := false }) ∧
      (s.slot = false → StopHandle.stop r s = s) := by
  refine ⟨fun hs hrx => ?_, fun hs hrx => ?_,
    fun hs => stop_of_slot_false r s hs⟩
  · simp [StopHandle.stop, deposit_of_slot_true_rx r s hs hrx]
  · simp [StopHandle.stop, deposit_of_slot_true_norx r s hs hrx]

/-- Witness for C7 at concrete inputs covering all three slot states. -/
theorem stop_no_failure_witness :
    StopHandle.stop 4 (stop_handle Nat).1 =
        { (stop_handle Nat).1 with slot := false, chan := ChanData.sent 4 } ∧
      StopHandle.stop 5 (dropReceiver (stop_handle Nat).1) =
        { dropReceiver (stop_handle Nat).1 with slot := false } ∧
      StopHandle.stop 6 (StopHandle.stop 4 (stop_handle Nat).1) =
        StopHandle.stop 4 (stop_handle Nat).1 :=
  ⟨(stop_no_failure Nat 4 (stop_handle Nat).1).1 rfl rfl,
   (stop_no_failure Nat 5 (dropReceiver (stop_handle Nat).1)).2.1 rfl rfl,
   (stop_no_failure Nat 6 (StopHandle.stop 4 (stop_handle Nat).1)).2.2 (by decide)⟩

/-- C8: any serialized interleaving of `N ≥ 1` concurrent `stop(r_i)`
calls on clones of one fresh handle has exactly one call transmit its
reason, and the waiter observes `Requested(r_i)` for one of the
reasons in the list. -/
theorem concurrent_stops_exactly_one (T : Type) (r : T) (rest : List T) :
    countWins (r :: rest) (stop_handle T).1 = 1 ∧
      ∃ x, x ∈ r :: rest ∧
        awaitOutcome (stop_handle T).2
            (runStops (r :: rest) (stop_handle T).1).chan =
          some (StopReason.Requested x) := by
  have hdep : deposit r (stop_handle T).1 =
      (true, { (stop_handle T).1 with slot := false, chan := ChanData.sent r }) :=
    deposit_of_slot_true_rx r _ rfl rfl
  constructor
  · have h0 : countWins rest
        { refs := (stop_handle T).1.refs, slot := false,
          chan := ChanData.sent r, rxAlive := (stop_handle T).1.rxAlive } = 0 :=
      countWins_of_slot_false rest _ rfl
    simp [countWins, hdep, h0]
  · refine ⟨r, List.mem_cons_self r rest, ?_⟩
    have hstop : StopHandle.stop r (stop_handle T).1 =
        { (stop_handle T).1 with slot := false, chan := ChanData.sent r } := by
      simp [StopHandle.stop, hdep]
    have hrun : runStops (r :: rest) (stop_handle T).1 =
        { (stop_handle T).1 with slot := false, chan := ChanData.sent r } := by
      simp only [runStops, List.foldl_cons]
      rw [hstop]
      exact runStops_of_slot_false rest _ rfl
    rw [hrun]
    simp [stop_handle, awaitOutcome, StopWait.poll, fusePoll, receiverPoll]

/-- C9: the `Display` rendering of `Requested(r)` is
"requested with reason \x60<r>\x60" with the payload rendered in
place, and the rendering of `HandleLost` is "handle lost". -/
theorem display_rendering (T : Type) (fT : T → String) (r : T) :
    (StopReason.displayFmt fT (StopReason.Requested r) ⟨""⟩).buf =
        "requested with reason `" ++ fT r ++ "`" ∧
      (StopReason.displayFmt fT StopReason.HandleLost ⟨""⟩).buf =
        "handle lost" := by
  constructor <;> simp [StopReason.displayFmt, Fmt.write]

/-- C10: `Clone for StopReason` preserves the variant: `HandleLost`
clones to `HandleLost` and `Requested(r)` clones to
`Requested(r.clone())`. -/
theorem clone_preserves_variant (T : Type) (cT : T → T) (r : T) :
    StopReason.cloneImpl cT (StopReason.HandleLost : StopReason T) =
        StopReason.HandleLost ∧
      StopReason.cloneImpl cT (StopReason.Requested r) =
        StopReason.Requested (cT r) :=
  ⟨rfl, rfl⟩

end StopLib
